import Mathlib

/-!
Verification of the deterministic astronomy engine of `utils/astronomy.ts`
(Julian Day / sidereal time base, moon-phase engine, constellation and
planet visibility, and the moon-phase vector renderer), together with the
response assembly of the star-map API handler.

Numbers are modelled exactly: calendar fields as integers, astronomical
quantities as rationals (JavaScript float literals such as 29.53059 are
taken at their decimal value), and the one transcendental quantity
(the cosine in the illumination formula) over the reals.  JavaScript's
`%` operator (truncated remainder) is modelled by `jsMod`; `Math.floor`
of a quotient with positive divisor is integer floor division, which on
`ℤ` with a positive divisor is the `/` (Euclidean) division used below.
-/

namespace Astronomy

/-- A calendar instant as observed through the JavaScript `Date` accessors
used by the source: `getFullYear`, `getMonth` (0-based), `getDate`,
`getUTCHours`, `getUTCMinutes`, `getUTCSeconds`. -/
structure Instant where
  year : ℤ
  month : ℤ
  day : ℤ
  hour : ℤ
  minute : ℤ
  second : ℤ
deriving DecidableEq, Repr

/-- Gregorian leap year, as produced by the civil calendar (what `Date`
accessor values satisfy). -/
def isLeapYear (y : ℤ) : Prop := (4 ∣ y ∧ ¬(100 ∣ y)) ∨ 400 ∣ y

instance (y : ℤ) : Decidable (isLeapYear y) := by unfold isLeapYear; infer_instance

/-- Number of days of 1-based month `m` of year `y` in the civil calendar. -/
def daysInMonth (y : ℤ) (m : ℤ) : ℤ :=
  if m = 2 then (if isLeapYear y then 29 else 28)
  else if m = 4 ∨ m = 6 ∨ m = 9 ∨ m = 11 then 30
  else 31

/-- The field combinations that an actual `Date` value can produce:
month index in 0..11, day in 1..days-of-month, time fields in range. -/
def Instant.Valid (d : Instant) : Prop :=
  0 ≤ d.month ∧ d.month ≤ 11 ∧
  1 ≤ d.day ∧ d.day ≤ daysInMonth d.year (d.month + 1) ∧
  0 ≤ d.hour ∧ d.hour ≤ 23 ∧
  0 ≤ d.minute ∧ d.minute ≤ 59 ∧
  0 ≤ d.second ∧ d.second ≤ 59

instance (d : Instant) : Decidable d.Valid := by unfold Instant.Valid; infer_instance

/-- `d1` is an earlier instant than `d2` (lexicographic on the calendar
fields, the order in which wall-clock time orders them). -/
def Instant.Earlier (d1 d2 : Instant) : Prop :=
  d1.year < d2.year ∨ (d1.year = d2.year ∧
    (d1.month < d2.month ∨ (d1.month = d2.month ∧
      (d1.day < d2.day ∨ (d1.day = d2.day ∧
        (d1.hour < d2.hour ∨ (d1.hour = d2.hour ∧
          (d1.minute < d2.minute ∨ (d1.minute = d2.minute ∧
            d1.second < d2.second)))))))))

instance (d1 d2 : Instant) : Decidable (d1.Earlier d2) := by
  unfold Instant.Earlier; infer_instance

/-- Integer part of the Meeus Julian Day formula of `getJulianDay`
(`astronomy.ts` lines 76-84), for 1-based month `month`.  All the
`Math.floor(… / k)` steps have positive `k`, so they are the floor
divisions written `/` here. -/
def jdnInt (year month day : ℤ) : ℤ :=
  let a := (14 - month) / 12
  let y := year + 4800 - a
  let m := month + 12 * a - 3
  day + (153 * m + 2) / 5 + 365 * y + y / 4 - y / 100 + y / 400 - 32045

/-- Seconds into the UTC day of an instant. -/
def Instant.fracSecs (d : Instant) : ℤ := 3600 * d.hour + 60 * d.minute + d.second

/-- `getJulianDay` (`astronomy.ts` lines 70-91): the Meeus integer day
number plus the time-of-day contribution `(hours-12)/24 + minutes/1440 +
seconds/86400`. -/
def getJulianDay (d : Instant) : ℚ :=
  (jdnInt d.year (d.month + 1) d.day : ℚ)
    + ((d.hour : ℚ) - 12) / 24 + (d.minute : ℚ) / 1440 + (d.second : ℚ) / 86400

/-- The day-number bounds that validity puts on the `day` field, in the
linear-arithmetic form used by the monotonicity proof. -/
lemma valid_day_bounds (d : Instant) (h : d.Valid) :
    1 ≤ d.day ∧ d.day ≤ 31 ∧
    (d.month + 1 = 2 → (isLeapYear d.year → d.day ≤ 29) ∧ (¬ isLeapYear d.year → d.day ≤ 28)) ∧
    (d.month + 1 = 4 ∨ d.month + 1 = 6 ∨ d.month + 1 = 9 ∨ d.month + 1 = 11 → d.day ≤ 30) := by
  obtain ⟨hm0, hm1, hd1, hd2, -⟩ := h
  unfold daysInMonth at hd2
  refine ⟨hd1, ?_, ?_, ?_⟩
  · split_ifs at hd2 with h1 h2 h3 <;> omega
  · intro h2
    rw [if_pos h2] at hd2
    constructor <;> intro hl <;> simp [hl] at hd2 <;> omega
  · intro h4
    have hne : d.month + 1 ≠ 2 := by omega
    rw [if_neg hne, if_pos h4] at hd2
    omega

/-- Year contribution of the Meeus formula: days accumulated by whole
(March-based) years `Y`. -/
def yearDays (Y : ℤ) : ℤ := 365 * Y + Y / 4 - Y / 100 + Y / 400

/-- Month contribution of the Meeus formula for the shifted month index
`M` (`0` = March … `11` = February). -/
def monthDays (M : ℤ) : ℤ := (153 * M + 2) / 5

lemma jdnInt_eq (year month day : ℤ) : jdnInt year month day =
    day + monthDays (month + 12 * ((14 - month) / 12) - 3)
      + yearDays (year + 4800 - (14 - month) / 12) - 32045 := by
  simp only [jdnInt, yearDays, monthDays]; ring

lemma yearDays_step (Y : ℤ) :
    yearDays Y + 365 ≤ yearDays (Y + 1) ∧ yearDays (Y + 1) ≤ yearDays Y + 366 := by
  simp only [yearDays]; omega

lemma yearDays_mono_ge (Y1 Y2 : ℤ) (h : Y1 ≤ Y2) :
    yearDays Y1 + 365 * (Y2 - Y1) ≤ yearDays Y2 := by
  simp only [yearDays]; omega

/-- Moving to a strictly later month of the same March-based year gains
at least the length of the starting month (30/31-day months; shifted
index `0` = March … `10` = January, so February never starts the gap). -/
lemma monthDays_month_lt (m1 m2 dd1 dd2 : ℤ)
    (hm1lo : 3 ≤ m1) (hm1hi : m1 ≤ 12) (hm2hi : m2 ≤ 12)
    (h30 : m1 = 4 ∨ m1 = 6 ∨ m1 = 9 ∨ m1 = 11 → dd1 ≤ 30)
    (hub1 : dd1 ≤ 31) (hd2 : 1 ≤ dd2) (hlt : m1 < m2) :
    dd1 + monthDays (m1 - 3) < dd2 + monthDays (m2 - 3) := by
  have h3 : 3 ≤ m2 := by omega
  interval_cases m1 <;> interval_cases m2 <;> simp only [monthDays] <;> omega

/-- Crossing a February: the year-days gap from shifted year `y+4799`
(containing February of calendar year `y`) to `y+4800` is exactly
365 plus the leap bit of `y`. -/
lemma yearDays_leap_step (y : ℤ) :
    (isLeapYear y → yearDays (y + 4800) = yearDays (y + 4799) + 366) ∧
    (¬ isLeapYear y → yearDays (y + 4800) = yearDays (y + 4799) + 365) := by
  simp only [yearDays, isLeapYear]
  omega

/-- Strict monotonicity of the integer Julian Day number over valid
calendar dates, in lexicographic date order. -/
lemma jdnInt_strictMono (d1 d2 : Instant) (h1 : d1.Valid) (h2 : d2.Valid)
    (hlex : d1.year < d2.year ∨ (d1.year = d2.year ∧
      (d1.month < d2.month ∨ (d1.month = d2.month ∧ d1.day < d2.day)))) :
    jdnInt d1.year (d1.month + 1) d1.day < jdnInt d2.year (d2.month + 1) d2.day := by
  have b1 := valid_day_bounds d1 h1
  have b2 := valid_day_bounds d2 h2
  have hd1 : 1 ≤ d1.day := b1.1
  have hub1 : d1.day ≤ 31 := b1.2.1
  have hfeb1 := b1.2.2.1
  have h30 := b1.2.2.2
  have hd2 : 1 ≤ d2.day := b2.1
  have hm1 : 0 ≤ d1.month ∧ d1.month ≤ 11 := ⟨h1.1, h1.2.1⟩
  have hm2 : 0 ≤ d2.month ∧ d2.month ≤ 11 := ⟨h2.1, h2.2.1⟩
  clear b1 b2 h1 h2
  rw [jdnInt_eq, jdnInt_eq]
  -- resolve the leap-correction term `a` of both dates
  by_cases hc1 : d1.month + 1 ≤ 2 <;> by_cases hc2 : d2.month + 1 ≤ 2
  · -- both dates in January/February
    have ha1 : (14 - (d1.month + 1)) / 12 = 1 := by omega
    have ha2 : (14 - (d2.month + 1)) / 12 = 1 := by omega
    rw [ha1, ha2]
    have e1 : d1.year + 4800 - 1 = d1.year + 4799 := by ring
    have e2 : d2.year + 4800 - 1 = d2.year + 4799 := by ring
    rw [e1, e2]
    rcases hlex with hy | ⟨hy, hrest⟩
    · -- strictly later year
      by_cases hFeb : d1.month + 1 = 2
      · -- February start date: take one exact leap step, then whole years
        have hmono := yearDays_mono_ge (d1.year + 4800) (d2.year + 4799) (by omega)
        by_cases hL : isLeapYear d1.year
        · have hg := (yearDays_leap_step d1.year).1 hL
          have hub := (hfeb1 hFeb).1 hL
          simp only [monthDays]
          omega
        · have hg := (yearDays_leap_step d1.year).2 hL
          have hub := (hfeb1 hFeb).2 hL
          simp only [monthDays]
          omega
      · -- January start date: whole-year growth is already enough
        have hmono := yearDays_mono_ge (d1.year + 4799) (d2.year + 4799) (by omega)
        simp only [monthDays]
        omega
    · -- same year, both in January/February
      rw [hy]
      simp only [monthDays]
      omega
  · -- d1 in Jan/Feb, d2 in Mar..Dec
    have ha1 : (14 - (d1.month + 1)) / 12 = 1 := by omega
    have ha2 : (14 - (d2.month + 1)) / 12 = 0 := by omega
    rw [ha1, ha2]
    have e1 : d1.year + 4800 - 1 = d1.year + 4799 := by ring
    have e2 : d2.year + 4800 - 0 = d2.year + 4800 := by ring
    rw [e1, e2]
    rcases hlex with hy | ⟨hy, hrest⟩
    · -- strictly later year: at least two shifted-year steps
      have hmono := yearDays_mono_ge (d1.year + 4799) (d2.year + 4800) (by omega)
      simp only [monthDays]
      omega
    · -- same year: exactly the (possibly leap) February step
      rw [hy]
      by_cases hFeb : d1.month + 1 = 2
      · by_cases hL : isLeapYear d1.year
        · have hg := (yearDays_leap_step d1.year).1 hL
          have hub := (hfeb1 hFeb).1 hL
          rw [hy] at hg
          simp only [monthDays]
          omega
        · have hg := (yearDays_leap_step d1.year).2 hL
          have hub := (hfeb1 hFeb).2 hL
          rw [hy] at hg
          simp only [monthDays]
          omega
      · have hstep := (yearDays_step (d2.year + 4799)).1
        have e3 : d2.year + 4799 + 1 = d2.year + 4800 := by ring
        rw [e3] at hstep
        simp only [monthDays]
        omega
  · -- d1 in Mar..Dec, d2 in Jan/Feb (necessarily a later year)
    have ha1 : (14 - (d1.month + 1)) / 12 = 0 := by omega
    have ha2 : (14 - (d2.month + 1)) / 12 = 1 := by omega
    rw [ha1, ha2]
    have e1 : d1.year + 4800 - 0 = d1.year + 4800 := by ring
    have e2 : d2.year + 4800 - 1 = d2.year + 4799 := by ring
    rw [e1, e2]
    have hy : d1.year < d2.year := by
      rcases hlex with hy | ⟨hy, hrest⟩
      · exact hy
      · omega
    have hmono := yearDays_mono_ge (d1.year + 4800) (d2.year + 4799) (by omega)
    simp only [monthDays]
    omega
  · -- both dates in Mar..Dec
    have ha1 : (14 - (d1.month + 1)) / 12 = 0 := by omega
    have ha2 : (14 - (d2.month + 1)) / 12 = 0 := by omega
    rw [ha1, ha2]
    have e1 : d1.year + 4800 - 0 = d1.year + 4800 := by ring
    have e2 : d2.year + 4800 - 0 = d2.year + 4800 := by ring
    rw [e1, e2]
    rcases hlex with hy | ⟨hy, hrest⟩
    · have hmono := yearDays_mono_ge (d1.year + 4800) (d2.year + 4800) (by omega)
      simp only [monthDays]
      omega
    · rw [hy]
      have e3 : d1.month + 1 + 12 * 0 - 3 = (d1.month + 1) - 3 := by ring
      have e4 : d2.month + 1 + 12 * 0 - 3 = (d2.month + 1) - 3 := by ring
      rw [e3, e4]
      rcases hrest with hmlt | ⟨hmeq, hdlt⟩
      · have key := monthDays_month_lt (d1.month + 1) (d2.month + 1) d1.day d2.day
          (by omega) (by omega) (by omega) (by omega) hub1 hd2 (by omega)
        omega
      · rw [hmeq]
        omega

lemma getJulianDay_eq (d : Instant) : getJulianDay d =
    ((86400 * jdnInt d.year (d.month + 1) d.day + d.fracSecs - 43200 : ℤ) : ℚ) / 86400 := by
  simp only [getJulianDay, Instant.fracSecs]
  push_cast
  ring

/-- C3: `julianDay` is strictly monotone in wall-clock time: whenever
`d1` is earlier than `d2` (both valid calendar instants), the Julian Day
of `d1` is strictly below that of `d2`. -/
theorem julianDay_strictMono (d1 d2 : Instant) (h1 : d1.Valid) (h2 : d2.Valid)
    (h : d1.Earlier d2) : getJulianDay d1 < getJulianDay d2 := by
  rw [getJulianDay_eq, getJulianDay_eq]
  apply div_lt_div_of_pos_right _ (by norm_num)
  rw [Int.cast_lt]
  have hfs1 : 0 ≤ d1.fracSecs ∧ d1.fracSecs ≤ 86399 := by
    obtain ⟨-, -, -, -, hh0, hh1, hmn0, hmn1, hs0, hs1⟩ := h1
    simp only [Instant.fracSecs]
    omega
  have hfs2 : 0 ≤ d2.fracSecs ∧ d2.fracSecs ≤ 86399 := by
    obtain ⟨-, -, -, -, hh0, hh1, hmn0, hmn1, hs0, hs1⟩ := h2
    simp only [Instant.fracSecs]
    omega
  rcases h with hy | ⟨hy, h⟩
  · have hj := jdnInt_strictMono d1 d2 h1 h2 (Or.inl hy)
    omega
  · rcases h with hm | ⟨hm, h⟩
    · have hj := jdnInt_strictMono d1 d2 h1 h2 (Or.inr ⟨hy, Or.inl hm⟩)
      omega
    · rcases h with hd | ⟨hd, h⟩
      · have hj := jdnInt_strictMono d1 d2 h1 h2 (Or.inr ⟨hy, Or.inr ⟨hm, hd⟩⟩)
        omega
      · -- same calendar date: compare time of day
        rw [hy, hm, hd]
        have t1 := h1.2.2.2.2
        have t2 := h2.2.2.2.2
        simp only [Instant.fracSecs] at *
        omega

/-- Witness for C3 at a concrete pair of instants
(2020-01-15 10:30:00 and 2020-02-01 00:00:00). -/
theorem julianDay_strictMono_witness :
    (Instant.mk 2020 0 15 10 30 0).Valid ∧ (Instant.mk 2020 1 1 0 0 0).Valid ∧
    (Instant.mk 2020 0 15 10 30 0).Earlier (Instant.mk 2020 1 1 0 0 0) ∧
    getJulianDay (Instant.mk 2020 0 15 10 30 0) < getJulianDay (Instant.mk 2020 1 1 0 0 0) :=
  ⟨by decide, by decide, by decide,
    julianDay_strictMono _ _ (by decide) (by decide) (by decide)⟩

/-- Integer part of a rational, rounded toward zero (the value JavaScript
uses for the quotient inside its `%` operator). -/
def ratTrunc (q : ℚ) : ℤ := if 0 ≤ q then ⌊q⌋ else ⌈q⌉

/-- JavaScript's `%` operator on exact numbers: the remainder
`a - b * trunc(a / b)`, which keeps the sign of the dividend. -/
def jsMod (a b : ℚ) : ℚ := a - b * (ratTrunc (a / b) : ℚ)

lemma jsMod_nonneg (a b : ℚ) (ha : 0 ≤ a) (hb : 0 < b) : 0 ≤ jsMod a b := by
  have hq : 0 ≤ a / b := div_nonneg ha hb.le
  simp only [jsMod, ratTrunc, if_pos hq]
  have hfl : ((⌊a / b⌋ : ℚ)) ≤ a / b := Int.floor_le (a / b)
  have h2 : b * ((⌊a / b⌋ : ℚ)) ≤ b * (a / b) := by
    exact mul_le_mul_of_nonneg_left hfl hb.le
  have h3 : b * (a / b) = a := by field_simp
  linarith

lemma jsMod_lt (a b : ℚ) (ha : 0 ≤ a) (hb : 0 < b) : jsMod a b < b := by
  have hq : 0 ≤ a / b := div_nonneg ha hb.le
  simp only [jsMod, ratTrunc, if_pos hq]
  have hfl : a / b < (⌊a / b⌋ : ℚ) + 1 := Int.lt_floor_add_one (a / b)
  have h2 : a < ((⌊a / b⌋ : ℚ) + 1) * b := (div_lt_iff₀ hb).mp hfl
  nlinarith

lemma jsMod_neg_bounds (a b : ℚ) (ha : a < 0) (hb : 0 < b) :
    -b < jsMod a b ∧ jsMod a b ≤ 0 := by
  have hq : a / b < 0 := div_neg_of_neg_of_pos ha hb
  have hq' : ¬ (0 ≤ a / b) := not_le.mpr hq
  simp only [jsMod, ratTrunc, if_neg hq']
  have hc1 : a / b ≤ (⌈a / b⌉ : ℚ) := Int.le_ceil (a / b)
  have hc2 : ((⌈a / b⌉ : ℚ)) < a / b + 1 := Int.ceil_lt_add_one (a / b)
  have h3 : b * (a / b) = a := by field_simp
  constructor
  · have h2 : b * ((⌈a / b⌉ : ℚ)) < b * (a / b + 1) := by
      exact mul_lt_mul_of_pos_left hc2 hb
    have h4 : b * (a / b + 1) = a + b := by rw [mul_add, h3, mul_one]
    linarith
  · have h2 : b * (a / b) ≤ b * ((⌈a / b⌉ : ℚ)) := mul_le_mul_of_nonneg_left hc1 hb.le
    linarith

/-- The source's explicit two-step normalization `((x % 360) + 360) % 360`
always lands in `[0, 360)`. -/
lemma normalize360_mem (x : ℚ) :
    0 ≤ jsMod (jsMod x 360 + 360) 360 ∧ jsMod (jsMod x 360 + 360) 360 < 360 := by
  have hy : 0 ≤ jsMod x 360 + 360 := by
    rcases le_or_lt 0 x with hx | hx
    · have := jsMod_nonneg x 360 hx (by norm_num)
      linarith
    · have := (jsMod_neg_bounds x 360 hx (by norm_num)).1
      linarith
  exact ⟨jsMod_nonneg _ _ hy (by norm_num), jsMod_lt _ _ hy (by norm_num)⟩

/-- `getLocalSiderealTime` (`astronomy.ts` lines 99-115): Greenwich
sidereal time from the cubic polynomial in Julian centuries, normalized,
plus observer longitude, normalized again. -/
def getLocalSiderealTime (d : Instant) (longitude : ℚ) : ℚ :=
  let jd := getJulianDay d
  let t := (jd - 2451545.0) / 36525
  let gst0 := 280.46061837 + 360.98564736629 * (jd - 2451545.0)
                + 0.000387933 * t * t - t * t * t / 38710000
  let gst := jsMod (jsMod gst0 360 + 360) 360
  let lst := gst + longitude
  jsMod (jsMod lst 360 + 360) 360

/-- C8: for every instant and every longitude, `localSiderealTime`
returns a value in `[0, 360)`, thanks to the explicit floored-modulo
normalization. -/
theorem localSiderealTime_mem_Ico (d : Instant) (longitude : ℚ) :
    0 ≤ getLocalSiderealTime d longitude ∧ getLocalSiderealTime d longitude < 360 := by
  simp only [getLocalSiderealTime]
  exact normalize360_mem _

/-- Mean synodic month in days (`astronomy.ts` line 124). -/
def lunarCycle : ℚ := 29.53059

/-- Reference new-moon Julian Day (`astronomy.ts` line 125). -/
def newMoonRef : ℚ := 2451550.1

/-- Phase fraction of `getMoonPhase` (`astronomy.ts` lines 126-128):
`((jd - newMoonRef) % lunarCycle) / lunarCycle` — note the source applies
JavaScript `%` with no further normalization. -/
def moonPhaseFraction (d : Instant) : ℚ :=
  jsMod (getJulianDay d - newMoonRef) lunarCycle / lunarCycle

/-- Phase-name branch chain of `getMoonPhase` (`astronomy.ts` 134-161). -/
def moonPhaseName (p : ℚ) : String :=
  if p < 0.025 ∨ 0.975 ≤ p then "New Moon"
  else if p < 0.225 then "Waxing Crescent"
  else if p < 0.275 then "First Quarter"
  else if p < 0.475 then "Waxing Gibbous"
  else if p < 0.525 then "Full Moon"
  else if p < 0.725 then "Waning Gibbous"
  else if p < 0.775 then "Last Quarter"
  else "Waning Crescent"

/-- Emoji branch chain of `getMoonPhase`, same boundaries. -/
def moonPhaseEmoji (p : ℚ) : String :=
  if p < 0.025 ∨ 0.975 ≤ p then "🌑"
  else if p < 0.225 then "🌒"
  else if p < 0.275 then "🌓"
  else if p < 0.475 then "🌔"
  else if p < 0.525 then "🌕"
  else if p < 0.725 then "🌖"
  else if p < 0.775 then "🌗"
  else "🌘"

/-- Illumination formula of `getMoonPhase` (`astronomy.ts` line 131):
`0.5 * (1 - cos(2π * phase))`, over the reals. -/
noncomputable def moonIllumination (p : ℚ) : ℝ :=
  0.5 * (1 - Real.cos (2 * Real.pi * (p : ℝ)))

/-- Result record of `getMoonPhase`; the source record also carries
`illumination`, which equals `moonIllumination phase` and is modelled as
the separate real-valued function to keep the rational part computable. -/
structure MoonPhaseData where
  name : String
  phase : ℚ
  emoji : String
deriving DecidableEq, Repr

/-- `getMoonPhase` (`astronomy.ts` lines 121-168). -/
def getMoonPhase (d : Instant) : MoonPhaseData :=
  { name := moonPhaseName (moonPhaseFraction d)
    phase := moonPhaseFraction d
    emoji := moonPhaseEmoji (moonPhaseFraction d) }

/-- C1 (code bug): on 1999-12-01 00:00 UTC — an instant whose Julian Day
2451513.5 precedes the reference new moon 2451550.1 — the computed
phase fraction is negative (exactly −235647/984353 ≈ −0.2394), because
the JavaScript `%` result is never normalized to a non-negative
remainder, contradicting the source's own `// Normalized 0-1` comment
and the `phase: 0-1` documentation of its result type. -/
theorem moonPhase_fraction_neg_before_reference :
    moonPhaseFraction (Instant.mk 1999 11 1 0 0 0) < 0 ∧
    (getMoonPhase (Instant.mk 1999 11 1 0 0 0)).phase < 0 := by
  have hjdn : jdnInt 1999 (11 + 1) 1 = 2451514 := by decide
  have hjd : getJulianDay (Instant.mk 1999 11 1 0 0 0) = 2451513.5 := by
    simp only [getJulianDay, hjdn]
    norm_num
  have harg : getJulianDay (Instant.mk 1999 11 1 0 0 0) - newMoonRef = -36.6 := by
    rw [hjd]; norm_num [newMoonRef]
  have htr : ratTrunc ((-36.6 : ℚ) / lunarCycle) = -1 := by
    simp only [ratTrunc, lunarCycle]
    rw [if_neg (by norm_num)]
    rw [Int.ceil_eq_iff]
    norm_num
  have key : moonPhaseFraction (Instant.mk 1999 11 1 0 0 0) < 0 := by
    simp only [moonPhaseFraction, jsMod, harg, htr]
    norm_num [lunarCycle]
  exact ⟨key, key⟩

/-- Spec interval for "New Moon": `[0, 0.025) ∪ [0.975, 1)`. -/
def inNewInterval (p : ℚ) : Prop := (0 ≤ p ∧ p < 0.025) ∨ (0.975 ≤ p ∧ p < 1)

/-- Spec interval for "Waxing Crescent": `[0.025, 0.225)`. -/
def inWaxingCrescentInterval (p : ℚ) : Prop := 0.025 ≤ p ∧ p < 0.225

/-- Spec interval for "First Quarter": `[0.225, 0.275)`. -/
def inFirstQuarterInterval (p : ℚ) : Prop := 0.225 ≤ p ∧ p < 0.275

/-- Spec interval for "Waxing Gibbous": `[0.275, 0.475)`. -/
def inWaxingGibbousInterval (p : ℚ) : Prop := 0.275 ≤ p ∧ p < 0.475

/-- Spec interval for "Full Moon": `[0.475, 0.525)`. -/
def inFullMoonInterval (p : ℚ) : Prop := 0.475 ≤ p ∧ p < 0.525

/-- Spec interval for "Waning Gibbous": `[0.525, 0.725)`. -/
def inWaningGibbousInterval (p : ℚ) : Prop := 0.525 ≤ p ∧ p < 0.725

/-- Spec interval for "Last Quarter": `[0.725, 0.775)`. -/
def inLastQuarterInterval (p : ℚ) : Prop := 0.725 ≤ p ∧ p < 0.775

/-- Spec interval for "Waning Crescent": `[0.775, 0.975)`. -/
def inWaningCrescentInterval (p : ℚ) : Prop := 0.775 ≤ p ∧ p < 0.975

/-- C6: over `[0, 1)` the eight spec intervals are exhaustive and, since
each is equivalent to the classifier returning its (distinct) name,
pairwise non-overlapping, and `moonPhaseName` assigns to each phase
fraction exactly the name of the interval containing it. -/
theorem moonPhase_classification (p : ℚ) (h0 : 0 ≤ p) (h1 : p < 1) :
    (moonPhaseName p = "New Moon" ↔ inNewInterval p) ∧
    (moonPhaseName p = "Waxing Crescent" ↔ inWaxingCrescentInterval p) ∧
    (moonPhaseName p = "First Quarter" ↔ inFirstQuarterInterval p) ∧
    (moonPhaseName p = "Waxing Gibbous" ↔ inWaxingGibbousInterval p) ∧
    (moonPhaseName p = "Full Moon" ↔ inFullMoonInterval p) ∧
    (moonPhaseName p = "Waning Gibbous" ↔ inWaningGibbousInterval p) ∧
    (moonPhaseName p = "Last Quarter" ↔ inLastQuarterInterval p) ∧
    (moonPhaseName p = "Waning Crescent" ↔ inWaningCrescentInterval p) ∧
    (inNewInterval p ∨ inWaxingCrescentInterval p ∨ inFirstQuarterInterval p ∨
      inWaxingGibbousInterval p ∨ inFullMoonInterval p ∨ inWaningGibbousInterval p ∨
      inLastQuarterInterval p ∨ inWaningCrescentInterval p) := by
  simp only [moonPhaseName, inNewInterval, inWaxingCrescentInterval, inFirstQuarterInterval,
    inWaxingGibbousInterval, inFullMoonInterval, inWaningGibbousInterval,
    inLastQuarterInterval, inWaningCrescentInterval]
  split_ifs with hA hB hC hD hE hF hG
  · -- New Moon
    have hmem : (0 ≤ p ∧ p < 0.025) ∨ (0.975 ≤ p ∧ p < 1) := by
      rcases hA with h | h
      · exact Or.inl ⟨h0, h⟩
      · exact Or.inr ⟨h, h1⟩
    refine ⟨iff_of_true rfl hmem, ?_, ?_, ?_, ?_, ?_, ?_, ?_, Or.inl hmem⟩ <;>
      exact iff_of_false (by decide)
        (by rintro ⟨ha, hb⟩; rcases hA with h | h <;> linarith)
  · -- Waxing Crescent
    have hlo : 0.025 ≤ p := by
      rcases not_or.mp hA with ⟨h, -⟩; linarith [not_lt.mp h]
    have hhi : p < 0.975 := by
      rcases not_or.mp hA with ⟨-, h⟩; linarith [not_le.mp h]
    refine ⟨?_, iff_of_true rfl ⟨hlo, hB⟩, ?_, ?_, ?_, ?_, ?_, ?_,
      Or.inr (Or.inl ⟨hlo, hB⟩)⟩
    · exact iff_of_false (by decide)
        (by rintro (⟨ha, hb⟩ | ⟨ha, hb⟩) <;> linarith)
    all_goals exact iff_of_false (by decide) (by rintro ⟨ha, hb⟩ <;> linarith)
  · -- First Quarter
    have hlo : 0.225 ≤ p := not_lt.mp hB
    refine ⟨?_, ?_, iff_of_true rfl ⟨hlo, hC⟩, ?_, ?_, ?_, ?_, ?_,
      Or.inr (Or.inr (Or.inl ⟨hlo, hC⟩))⟩
    · exact iff_of_false (by decide)
        (by rintro (⟨ha, hb⟩ | ⟨ha, hb⟩) <;> linarith)
    all_goals exact iff_of_false (by decide) (by rintro ⟨ha, hb⟩ <;> linarith)
  · -- Waxing Gibbous
    have hlo : 0.275 ≤ p := not_lt.mp hC
    refine ⟨?_, ?_, ?_, iff_of_true rfl ⟨hlo, hD⟩, ?_, ?_, ?_, ?_,
      Or.inr (Or.inr (Or.inr (Or.inl ⟨hlo, hD⟩)))⟩
    · exact iff_of_false (by decide)
        (by rintro (⟨ha, hb⟩ | ⟨ha, hb⟩) <;> linarith)
    all_goals exact iff_of_false (by decide) (by rintro ⟨ha, hb⟩ <;> linarith)
  · -- Full Moon
    have hlo : 0.475 ≤ p := not_lt.mp hD
    refine ⟨?_, ?_, ?_, ?_, iff_of_true rfl ⟨hlo, hE⟩, ?_, ?_, ?_,
      Or.inr (Or.inr (Or.inr (Or.inr (Or.inl ⟨hlo, hE⟩))))⟩
    · exact iff_of_false (by decide)
        (by rintro (⟨ha, hb⟩ | ⟨ha, hb⟩) <;> linarith)
    all_goals exact iff_of_false (by decide) (by rintro ⟨ha, hb⟩ <;> linarith)
  · -- Waning Gibbous
    have hlo : 0.525 ≤ p := not_lt.mp hE
    refine ⟨?_, ?_, ?_, ?_, ?_, iff_of_true rfl ⟨hlo, hF⟩, ?_, ?_,
      Or.inr (Or.inr (Or.inr (Or.inr (Or.inr (Or.inl ⟨hlo, hF⟩)))))⟩
    · exact iff_of_false (by decide)
        (by rintro (⟨ha, hb⟩ | ⟨ha, hb⟩) <;> linarith)
    all_goals exact iff_of_false (by decide) (by rintro ⟨ha, hb⟩ <;> linarith)
  · -- Last Quarter
    have hlo : 0.725 ≤ p := not_lt.mp hF
    refine ⟨?_, ?_, ?_, ?_, ?_, ?_, iff_of_true rfl ⟨hlo, hG⟩, ?_,
      Or.inr (Or.inr (Or.inr (Or.inr (Or.inr (Or.inr (Or.inl ⟨hlo, hG⟩))))))⟩
    · exact iff_of_false (by decide)
        (by rintro (⟨ha, hb⟩ | ⟨ha, hb⟩) <;> linarith)
    all_goals exact iff_of_false (by decide) (by rintro ⟨ha, hb⟩ <;> linarith)
  · -- Waning Crescent
    have hlo : 0.775 ≤ p := not_lt.mp hG
    have hhi : p < 0.975 := by
      rcases not_or.mp hA with ⟨-, h⟩; linarith [not_le.mp h]
    refine ⟨?_, ?_, ?_, ?_, ?_, ?_, ?_, iff_of_true rfl ⟨hlo, hhi⟩,
      Or.inr (Or.inr (Or.inr (Or.inr (Or.inr (Or.inr (Or.inr ⟨hlo, hhi⟩))))))⟩
    · exact iff_of_false (by decide)
        (by rintro (⟨ha, hb⟩ | ⟨ha, hb⟩) <;> linarith)
    all_goals exact iff_of_false (by decide) (by rintro ⟨ha, hb⟩ <;> linarith)

/-- Witness for C6, instantiated at the phase fraction 1/2 (Full Moon). -/
theorem moonPhase_classification_witness :
    (moonPhaseName (1/2) = "New Moon" ↔ inNewInterval (1/2)) ∧
    (moonPhaseName (1/2) = "Waxing Crescent" ↔ inWaxingCrescentInterval (1/2)) ∧
    (moonPhaseName (1/2) = "First Quarter" ↔ inFirstQuarterInterval (1/2)) ∧
    (moonPhaseName (1/2) = "Waxing Gibbous" ↔ inWaxingGibbousInterval (1/2)) ∧
    (moonPhaseName (1/2) = "Full Moon" ↔ inFullMoonInterval (1/2)) ∧
    (moonPhaseName (1/2) = "Waning Gibbous" ↔ inWaningGibbousInterval (1/2)) ∧
    (moonPhaseName (1/2) = "Last Quarter" ↔ inLastQuarterInterval (1/2)) ∧
    (moonPhaseName (1/2) = "Waning Crescent" ↔ inWaningCrescentInterval (1/2)) ∧
    (inNewInterval (1/2) ∨ inWaxingCrescentInterval (1/2) ∨ inFirstQuarterInterval (1/2) ∨
      inWaxingGibbousInterval (1/2) ∨ inFullMoonInterval (1/2) ∨
      inWaningGibbousInterval (1/2) ∨ inLastQuarterInterval (1/2) ∨
      inWaningCrescentInterval (1/2)) :=
  moonPhase_classification (1/2) (by norm_num) (by norm_num)

/-- The illumination formula always lands in `[0, 1]` (cosine bounds). -/
lemma moonIllumination_mem (p : ℚ) :
    0 ≤ moonIllumination p ∧ moonIllumination p ≤ 1 := by
  have hle := Real.cos_le_one (2 * Real.pi * (p : ℝ))
  have hge := Real.neg_one_le_cos (2 * Real.pi * (p : ℝ))
  constructor <;> simp only [moonIllumination] <;> linarith

/-- C7: for every instant the illumination fraction lies in `[0, 1]` and
is exactly `0.5 * (1 - cos(2π * phaseFraction))` for the phase fraction
of the same call. -/
theorem moonIllumination_range_and_formula (d : Instant) :
    0 ≤ moonIllumination (moonPhaseFraction d) ∧
    moonIllumination (moonPhaseFraction d) ≤ 1 ∧
    moonIllumination (moonPhaseFraction d)
      = 0.5 * (1 - Real.cos (2 * Real.pi * ((moonPhaseFraction d : ℚ) : ℝ))) :=
  ⟨(moonIllumination_mem _).1, (moonIllumination_mem _).2, rfl⟩

/-- Moon-phase part of the API handler's assembled response
(`responseData.moonPhase` in the star-map route): `name`, `illumination`
and `emoji` are taken from the engine result unchanged (the `svgPath`
field is the renderer output, modelled in the renderer section). -/
structure ResponseMoonPhase where
  name : String
  illumination : ℝ
  emoji : String

/-- The handler's `responseData.moonPhase` assembly: a plain pass-through
of the engine's fields. -/
noncomputable def responseMoonPhase (d : Instant) : ResponseMoonPhase :=
  { name := (getMoonPhase d).name
    illumination := moonIllumination ((getMoonPhase d).phase)
    emoji := (getMoonPhase d).emoji }

/-- C2 counterexample: on 2000-01-10 the response's illumination field
differs from `100 × illuminationFraction` — the handler never rescales
the 0–1 fraction to a percentage. -/
theorem response_illumination_not_percentage :
    (responseMoonPhase (Instant.mk 2000 0 10 0 0 0)).illumination ≠
      100 * moonIllumination (moonPhaseFraction (Instant.mk 2000 0 10 0 0 0)) := by
  have hjdn : jdnInt 2000 (0 + 1) 10 = 2451554 := by decide
  have hjd : getJulianDay (Instant.mk 2000 0 10 0 0 0) = 2451553.5 := by
    simp only [getJulianDay, hjdn]
    norm_num
  have harg : getJulianDay (Instant.mk 2000 0 10 0 0 0) - newMoonRef = 3.4 := by
    rw [hjd]; norm_num [newMoonRef]
  have htr : ratTrunc ((3.4 : ℚ) / lunarCycle) = 0 := by
    simp only [ratTrunc, lunarCycle]
    rw [if_pos (by norm_num)]
    rw [Int.floor_eq_iff]
    norm_num
  have hq : moonPhaseFraction (Instant.mk 2000 0 10 0 0 0) = 340000 / 2953059 := by
    simp only [moonPhaseFraction, jsMod, harg, htr]
    norm_num [lunarCycle]
  intro heq
  have hx : moonIllumination (moonPhaseFraction (Instant.mk 2000 0 10 0 0 0)) = 0 := by
    have : (responseMoonPhase (Instant.mk 2000 0 10 0 0 0)).illumination =
        moonIllumination (moonPhaseFraction (Instant.mk 2000 0 10 0 0 0)) := rfl
    rw [this] at heq
    linarith
  have hcos : Real.cos (2 * Real.pi *
      ((moonPhaseFraction (Instant.mk 2000 0 10 0 0 0) : ℚ) : ℝ)) = 1 := by
    simp only [moonIllumination] at hx
    linarith
  obtain ⟨n, hn⟩ := (Real.cos_eq_one_iff _).mp hcos
  have h2π : (2 * Real.pi) ≠ 0 := by positivity
  have hnq : (n : ℝ) = ((moonPhaseFraction (Instant.mk 2000 0 10 0 0 0) : ℚ) : ℝ) := by
    rw [mul_comm] at hn
    exact mul_left_cancel₀ h2π hn
  rw [hq] at hnq
  have h01 : (0 : ℝ) < (n : ℝ) ∧ (n : ℝ) < 1 := by
    rw [hnq]
    constructor <;> · push_cast; norm_num
  have h01' : 0 < n ∧ n < 1 := by exact_mod_cast h01
  omega

/-- C2 amended: the response's `moonPhase.illumination` equals the
engine's illumination fraction unchanged — a 0–1 scale (it is not
multiplied by 100). -/
theorem response_illumination_is_fraction (d : Instant) :
    (responseMoonPhase d).illumination = moonIllumination (moonPhaseFraction d) ∧
    0 ≤ (responseMoonPhase d).illumination ∧ (responseMoonPhase d).illumination ≤ 1 :=
  ⟨rfl, (moonIllumination_mem _).1, (moonIllumination_mem _).2⟩

/-- Result entries of `getVisiblePlanets` (`astronomy.ts` `PlanetData`). -/
structure PlanetData where
  name : String
  description : String
  magnitude : ℚ
  isVisible : Bool
deriving DecidableEq, Repr

/-- Orbit phase of a planet (`astronomy.ts` line 421):
`((jd - J2000) % period) / period` with JavaScript `%`. -/
def planetOrbitPhase (jd period : ℚ) : ℚ := jsMod (jd - 2451545.0) period / period

/-- Mercury branch of the `switch` (`astronomy.ts` lines 430-440). -/
def mercuryData (phase : ℚ) : PlanetData :=
  let magnitude := -1.9 + 7.6 * |phase - 0.5| * 2
  if phase < 0.25 ∨ phase > 0.75 then
    { name := "Mercury", description := "Low on eastern horizon before sunrise",
      magnitude := magnitude, isVisible := decide (phase > 0.8 ∨ phase < 0.2) }
  else
    { name := "Mercury", description := "Low on western horizon after sunset",
      magnitude := magnitude, isVisible := decide (phase > 0.3 ∧ phase < 0.7) }

/-- Venus branch of the `switch`: always visible, as morning or evening star. -/
def venusData (phase : ℚ) : PlanetData :=
  let magnitude := -4.6 + 1.6 * |phase - 0.5| * 2
  if phase < 0.25 ∨ phase > 0.75 then
    { name := "Venus", description := "Morning star (eastern horizon before sunrise)",
      magnitude := magnitude, isVisible := true }
  else
    { name := "Venus", description := "Evening star (western horizon after sunset)",
      magnitude := magnitude, isVisible := true }

/-- Mars branch of the `switch`: invisible in the last orbital quartile. -/
def marsData (phase : ℚ) : PlanetData :=
  let magnitude := -2.9 + 4.7 * |phase - 0.5| * 2
  if phase < 0.25 then
    { name := "Mars", description := "Rising in the east",
      magnitude := magnitude, isVisible := true }
  else if phase < 0.5 then
    { name := "Mars", description := "High in the southern sky",
      magnitude := magnitude, isVisible := true }
  else if phase < 0.75 then
    { name := "Mars", description := "Setting in the west",
      magnitude := magnitude, isVisible := true }
  else
    { name := "Mars", description := "Below horizon (not visible)",
      magnitude := magnitude, isVisible := false }

/-- Jupiter branch of the `switch`: visible in every orbital-phase branch. -/
def jupiterData (phase : ℚ) : PlanetData :=
  let magnitude := -2.9 + 0.9 * |phase - 0.5| * 2
  if phase < 0.33 then
    { name := "Jupiter", description := "Rising in the east",
      magnitude := magnitude, isVisible := true }
  else if phase < 0.66 then
    { name := "Jupiter", description := "High in the southern sky",
      magnitude := magnitude, isVisible := true }
  else
    { name := "Jupiter", description := "Setting in the west",
      magnitude := magnitude, isVisible := true }

/-- Saturn branch of the `switch`: invisible in the last orbital quartile. -/
def saturnData (phase : ℚ) : PlanetData :=
  let magnitude := -0.2 + 1.4 * |phase - 0.5| * 2
  if phase < 0.25 then
    { name := "Saturn", description := "Rising in the east",
      magnitude := magnitude, isVisible := true }
  else if phase < 0.5 then
    { name := "Saturn", description := "High in the southern sky",
      magnitude := magnitude, isVisible := true }
  else if phase < 0.75 then
    { name := "Saturn", description := "Setting in the west",
      magnitude := magnitude, isVisible := true }
  else
    { name := "Saturn", description := "Below horizon (not visible)",
      magnitude := magnitude, isVisible := false }

/-- Date-based perturbation (`astronomy.ts` lines 463-467): on dates with
`(day + month*31) % 11 == 0` every planet except Jupiter is forced
invisible.  JavaScript's truncated `%` is zero exactly when 11 divides
the date number, which the Euclidean `%` test used here also is. -/
def perturbPlanet (dateNum : ℤ) (p : PlanetData) : PlanetData :=
  if dateNum % 11 = 0 ∧ p.name ≠ "Jupiter" then
    { p with isVisible := false, description := "Below horizon (not visible)" }
  else p

/-- The five `switch` results in `Object.entries` (insertion) order. -/
def planetEntries (d : Instant) : List PlanetData :=
  [mercuryData (planetOrbitPhase (getJulianDay d) 88),
   venusData (planetOrbitPhase (getJulianDay d) 225),
   marsData (planetOrbitPhase (getJulianDay d) 687),
   jupiterData (planetOrbitPhase (getJulianDay d) 4333),
   saturnData (planetOrbitPhase (getJulianDay d) 10759)]

/-- The `result` array before the backup pass: the per-planet loop pushes
an entry only when it is visible after perturbation. -/
def visiblePlanetEntries (d : Instant) : List PlanetData :=
  ((planetEntries d).map (perturbPlanet (d.day + d.month * 31))).filter
    (fun p => p.isVisible)

/-- First backup entry (`astronomy.ts` lines 478-483). -/
def venusBackup : PlanetData :=
  { name := "Venus", description := "Evening star (western horizon after sunset)",
    magnitude := -4.0, isVisible := true }

/-- Second backup entry (`astronomy.ts` lines 484-489). -/
def jupiterBackup : PlanetData :=
  { name := "Jupiter", description := "High in the southern sky",
    magnitude := -2.5, isVisible := true }

/-- The backup loop (`astronomy.ts` lines 492-497): push Venus then
Jupiter, skipping a planet whose name is already present, stopping as
soon as the list reaches two entries. -/
def addBackupPlanets (res : List PlanetData) : List PlanetData :=
  if res.any (fun p => p.name == "Venus") then
    if res.any (fun p => p.name == "Jupiter") then res else res ++ [jupiterBackup]
  else
    if 2 ≤ (res ++ [venusBackup]).length then res ++ [venusBackup]
    else if (res ++ [venusBackup]).any (fun p => p.name == "Jupiter") then
      res ++ [venusBackup]
    else res ++ [venusBackup] ++ [jupiterBackup]

/-- `getVisiblePlanets` (`astronomy.ts` lines 402-500); the latitude and
longitude parameters are accepted but unused, as in the source. -/
def getVisiblePlanets (d : Instant) (latitude longitude : ℚ) : List PlanetData :=
  if (visiblePlanetEntries d).length < 2 then addBackupPlanets (visiblePlanetEntries d)
  else visiblePlanetEntries d

lemma jupiterData_fields (q : ℚ) :
    (jupiterData q).name = "Jupiter" ∧ (jupiterData q).isVisible = true := by
  unfold jupiterData
  split_ifs <;> exact ⟨rfl, rfl⟩

lemma perturbPlanet_jupiter (dn : ℤ) (p : PlanetData) (h : p.name = "Jupiter") :
    perturbPlanet dn p = p := by
  unfold perturbPlanet
  rw [if_neg]
  rintro ⟨-, hne⟩
  exact hne h

lemma mem_addBackupPlanets (res : List PlanetData) (x : PlanetData) (hx : x ∈ res) :
    x ∈ addBackupPlanets res := by
  unfold addBackupPlanets
  split_ifs <;> simp [hx]

lemma mem_addBackupPlanets_cases (res : List PlanetData) (x : PlanetData)
    (hx : x ∈ addBackupPlanets res) :
    x ∈ res ∨ x = venusBackup ∨ x = jupiterBackup := by
  unfold addBackupPlanets at hx
  split_ifs at hx <;>
    (try simp only [List.mem_append, List.mem_singleton] at hx) <;> tauto

/-- C10: for every instant and location the planets list contains a
visible entry named Jupiter. -/
theorem visiblePlanets_jupiter (d : Instant) (latitude longitude : ℚ) :
    ∃ p ∈ getVisiblePlanets d latitude longitude,
      p.name = "Jupiter" ∧ p.isVisible = true := by
  have hj := jupiterData_fields (planetOrbitPhase (getJulianDay d) 4333)
  have hmem0 : jupiterData (planetOrbitPhase (getJulianDay d) 4333) ∈ planetEntries d := by
    simp [planetEntries]
  have hmem1 : jupiterData (planetOrbitPhase (getJulianDay d) 4333) ∈
      (planetEntries d).map (perturbPlanet (d.day + d.month * 31)) :=
    List.mem_map.mpr ⟨_, hmem0, perturbPlanet_jupiter _ _ hj.1⟩
  have hmem2 : jupiterData (planetOrbitPhase (getJulianDay d) 4333) ∈
      visiblePlanetEntries d :=
    List.mem_filter.mpr ⟨hmem1, hj.2⟩
  unfold getVisiblePlanets
  split_ifs
  · exact ⟨_, mem_addBackupPlanets _ _ hmem2, hj⟩
  · exact ⟨_, hmem2, hj⟩

lemma two_le_length_of_mem_ne {α : Type} {l : List α} {x y : α}
    (hx : x ∈ l) (hy : y ∈ l) (hne : x ≠ y) : 2 ≤ l.length := by
  match l with
  | [] => cases hx
  | [a] =>
    rw [List.mem_singleton] at hx hy
    exact absurd (hx.trans hy.symm) hne
  | a :: b :: t => simp only [List.length]; omega

lemma mem_visiblePlanetEntries_isVisible (d : Instant) (p : PlanetData)
    (hp : p ∈ visiblePlanetEntries d) : p.isVisible = true :=
  List.of_mem_filter hp

lemma mem_addBackupPlanets_isVisible (res : List PlanetData)
    (hres : ∀ p ∈ res, p.isVisible = true) (x : PlanetData)
    (hx : x ∈ addBackupPlanets res) : x.isVisible = true := by
  rcases mem_addBackupPlanets_cases res x hx with h | h | h
  · exact hres x h
  · rw [h]; rfl
  · rw [h]; rfl

/-- C4: for every instant and location, `getVisiblePlanets` contains at
least two entries with `isVisible = true`. -/
theorem visiblePlanets_two_visible (d : Instant) (latitude longitude : ℚ) :
    2 ≤ ((getVisiblePlanets d latitude longitude).filter
      (fun p => p.isVisible)).length := by
  have hall : ∀ p ∈ getVisiblePlanets d latitude longitude, p.isVisible = true := by
    intro p hp
    unfold getVisiblePlanets at hp
    split_ifs at hp
    · exact mem_addBackupPlanets_isVisible _ (mem_visiblePlanetEntries_isVisible d) _ hp
    · exact mem_visiblePlanetEntries_isVisible d p hp
  rw [List.filter_eq_self.mpr hall]
  unfold getVisiblePlanets
  split_ifs with hlen
  · -- fewer than two survived: the backup pass tops the list up to two
    unfold addBackupPlanets
    split_ifs with hV hJ h2 hJ2
    · -- Venus and Jupiter both present: the list already has two entries
      rw [List.any_eq_true] at hV hJ
      obtain ⟨v, hv, hvn⟩ := hV
      obtain ⟨j, hj, hjn⟩ := hJ
      rw [beq_iff_eq] at hvn hjn
      refine two_le_length_of_mem_ne hv hj ?_
      intro he
      rw [he, hjn] at hvn
      exact absurd hvn (by decide)
    · -- Venus present, Jupiter appended
      rw [List.any_eq_true] at hV
      obtain ⟨v, hv, -⟩ := hV
      have h1 : 0 < (visiblePlanetEntries d).length := List.length_pos_of_mem hv
      simp only [List.length_append, List.length_singleton]
      omega
    · exact h2
    · -- Venus appended but list still short: it was empty, so Jupiter
      -- cannot already be present
      exfalso
      simp only [List.length_append, List.length_singleton] at h2
      have hres0 : (visiblePlanetEntries d).length = 0 := by omega
      rw [List.length_eq_zero] at hres0
      rw [hres0] at hJ2
      simp [venusBackup] at hJ2
    · simp only [List.length_append, List.length_singleton]
      omega
  · omega

/-- Astronomical seasons used by `getVisibleConstellations`. -/
inductive Season
  | winter
  | spring
  | summer
  | fall
deriving DecidableEq, Repr

/-- Season determination (`astronomy.ts` lines 184-210): month/day
thresholds, with the seasons inverted for southern-hemisphere
observers.  `month` is the 0-based `getMonth()` value. -/
def seasonForDate (month day : ℤ) (isNorthern : Bool) : Season :=
  if isNorthern then
    if (month = 11 ∧ 21 ≤ day) ∨ month < 2 ∨ (month = 2 ∧ day < 20) then .winter
    else if (month = 2 ∧ 20 ≤ day) ∨ month < 5 ∨ (month = 5 ∧ day < 21) then .spring
    else if (month = 5 ∧ 21 ≤ day) ∨ month < 8 ∨ (month = 8 ∧ day < 23) then .summer
    else .fall
  else
    if (month = 11 ∧ 21 ≤ day) ∨ month < 2 ∨ (month = 2 ∧ day < 20) then .summer
    else if (month = 2 ∧ 20 ≤ day) ∨ month < 5 ∨ (month = 5 ∧ day < 21) then .fall
    else if (month = 5 ∧ 21 ≤ day) ∨ month < 8 ∨ (month = 8 ∧ day < 23) then .winter
    else .spring

/-- Static seasonal catalog (`astronomy.ts` lines 214-255): constellation
name with approximate right-ascension center in hours. -/
def constellationsBySeason : Season → List (String × ℚ)
  | .winter => [("Orion", 5.5), ("Canis Major", 7), ("Canis Minor", 8), ("Gemini", 7),
      ("Taurus", 4.5), ("Auriga", 6), ("Perseus", 3), ("Eridanus", 3.5), ("Lepus", 6)]
  | .spring => [("Leo", 11), ("Virgo", 13), ("Ursa Major", 11), ("Bootes", 15),
      ("Corona Borealis", 16), ("Canes Venatici", 13), ("Coma Berenices", 13), ("Hydra", 12)]
  | .summer => [("Cygnus", 20.5), ("Lyra", 19), ("Aquila", 20), ("Hercules", 17),
      ("Scorpius", 17), ("Sagittarius", 19), ("Ophiuchus", 17.5), ("Libra", 15.5)]
  | .fall => [("Pegasus", 22), ("Andromeda", 1), ("Pisces", 1), ("Aquarius", 23),
      ("Capricornus", 21), ("Cetus", 2), ("Phoenix", 1), ("Grus", 22.5)]

/-- Northern circumpolar list (`astronomy.ts` line 258). -/
def circumNorth : List String :=
  ["Ursa Minor", "Cassiopeia", "Cepheus", "Draco", "Camelopardalis"]

/-- Southern circumpolar list (`astronomy.ts` line 259). -/
def circumSouth : List String :=
  ["Crux", "Centaurus", "Carina", "Octans", "Tucana"]

/-- Circular right-ascension distance in hours with 24-hour wraparound
(`astronomy.ts` lines 265-269). -/
def hourDiff (ra lstHours : ℚ) : ℚ :=
  if 12 < |ra - lstHours| then 24 - |ra - lstHours| else |ra - lstHours|

/-- Seasonal selection (`astronomy.ts` lines 264-287): filter RA within
6 hours of LST, sort ascending by that distance, take 5, keep names. -/
def visibleSeasonal (season : Season) (lstHours : ℚ) : List String :=
  ((((constellationsBySeason season).filter
      (fun c => decide (hourDiff c.2 lstHours < 6))).mergeSort
      (fun a b => decide (hourDiff a.2 lstHours ≤ hourDiff b.2 lstHours))).take 5).map
    (fun c => c.1)

/-- Date hash for circumpolar selection (`astronomy.ts` line 293):
`day + month*100 + year*10000`. -/
def constellationDateNum (d : Instant) : ℤ := d.day + d.month * 100 + d.year * 10000

/-- Fixed common-constellation fallback list (`astronomy.ts` line 310). -/
def commonConstellations : List String :=
  ["Orion", "Ursa Major", "Cassiopeia", "Crux", "Scorpius"]

/-- The fallback-padding loop (`astronomy.ts` lines 310-316): append each
common constellation not already present, stopping once the list has
5 entries. -/
def padCommon : List String → List String → List String
  | res, [] => res
  | res, c :: rest =>
    if c ∈ res then padCommon res rest
    else if 5 ≤ (res ++ [c]).length then res ++ [c]
    else padCommon (res ++ [c]) rest

/-- Hemisphere-dependent circumpolar list (`astronomy.ts` line 292). -/
def circListFor (latitude : ℚ) : List String :=
  if 0 ≤ latitude then circumNorth else circumSouth

/-- Seasonal names visible for an instant/location. -/
def seasonalFor (d : Instant) (latitude longitude : ℚ) : List String :=
  visibleSeasonal (seasonForDate d.month d.day (decide (0 ≤ latitude)))
    (getLocalSiderealTime d longitude / 15)

/-- Circumpolar picks (`astronomy.ts` lines 293-301): index
`dateNum % 5` always, plus `(dateNum + 2) % 5` when fewer than 4
seasonal names were kept.  The Euclidean `%` used for the index agrees
with the JavaScript operator whenever the date number is non-negative
(every CE calendar date). -/
def selCircFor (d : Instant) (latitude longitude : ℚ) : List String :=
  if (seasonalFor d latitude longitude).length < 4 then
    [(circListFor latitude).getD
        ((constellationDateNum d) % ((circListFor latitude).length : ℤ)).toNat "",
     (circListFor latitude).getD
        ((constellationDateNum d + 2) % ((circListFor latitude).length : ℤ)).toNat ""]
  else
    [(circListFor latitude).getD
        ((constellationDateNum d) % ((circListFor latitude).length : ℤ)).toNat ""]

/-- Final assembly (`astronomy.ts` lines 303-318): concatenate seasonal
and circumpolar names, pad from the common list when below 4, truncate
to at most 5. -/
def assembleConstellations (seasonal selCirc : List String) : List String :=
  (if (seasonal ++ selCirc).length < 4 then
    padCommon (seasonal ++ selCirc) commonConstellations
  else seasonal ++ selCirc).take 5

/-- `getVisibleConstellations` (`astronomy.ts` lines 176-319). -/
def getVisibleConstellations (d : Instant) (latitude longitude : ℚ) : List String :=
  assembleConstellations (seasonalFor d latitude longitude) (selCircFor d latitude longitude)

lemma padCommon_length_ge (cs : List String) (hnd : cs.Nodup) :
    ∀ res : List String,
      min 5 (res.length + (cs.filter (fun c => decide (c ∉ res))).length)
        ≤ (padCommon res cs).length := by
  induction cs with
  | nil =>
    intro res
    simp [padCommon]
  | cons c rest ih =>
    intro res
    obtain ⟨hcr, hrest⟩ := List.nodup_cons.mp hnd
    by_cases hc : c ∈ res
    · rw [padCommon, if_pos hc, List.filter_cons_of_neg (by simpa using hc)]
      exact ih hrest res
    · rw [padCommon, if_neg hc, List.filter_cons_of_pos (by simpa using hc)]
      by_cases h5 : 5 ≤ (res ++ [c]).length
      · rw [if_pos h5]
        omega
      · rw [if_neg h5]
        have hfeq : rest.filter (fun x => decide (x ∉ res ++ [c]))
            = rest.filter (fun x => decide (x ∉ res)) := by
          apply List.filter_congr
          intro x hx
          have hxc : x ≠ c := fun h => hcr (h ▸ hx)
          simp [List.mem_append, hxc]
        have := ih hrest (res ++ [c])
        rw [hfeq] at this
        simp only [List.length_append, List.length_singleton,
          List.length_cons] at this ⊢
        omega

lemma filter_not_mem_length_ge (cs res : List String) (hnd : cs.Nodup) :
    cs.length - res.length ≤ (cs.filter (fun c => decide (c ∉ res))).length := by
  have hsplit := List.length_eq_length_filter_add (l := cs)
    (fun c => decide (c ∈ res))
  have hdup : (cs.filter (fun c => decide (c ∈ res))).length ≤ res.length := by
    have hnd' : (cs.filter (fun c => decide (c ∈ res))).Nodup := hnd.filter _
    have hsub : (cs.filter (fun c => decide (c ∈ res))).toFinset ⊆ res.toFinset := by
      intro x hx
      rw [List.mem_toFinset] at hx ⊢
      have := List.of_mem_filter hx
      simpa using this
    calc (cs.filter (fun c => decide (c ∈ res))).length
        = (cs.filter (fun c => decide (c ∈ res))).toFinset.card :=
          (List.toFinset_card_of_nodup hnd').symm
      _ ≤ res.toFinset.card := Finset.card_le_card hsub
      _ ≤ res.length := List.toFinset_card_le res
  have heq : (cs.filter (fun c => decide (¬ c ∈ res)))
      = (cs.filter (fun c => ! decide (c ∈ res))) := by
    apply List.filter_congr
    intro x hx
    by_cases h : x ∈ res <;> simp [h]
  rw [heq]
  omega

lemma assembleConstellations_length (seasonal selCirc : List String)
    (hsel : if seasonal.length < 4 then selCirc.length = 2 else selCirc.length = 1)
    (hs : seasonal.length ≤ 5) :
    4 ≤ (assembleConstellations seasonal selCirc).length ∧
      (assembleConstellations seasonal selCirc).length ≤ 5 := by
  have hnd : commonConstellations.Nodup := by decide
  have hc5 : commonConstellations.length = 5 := rfl
  unfold assembleConstellations
  split_ifs with h4
  · -- padding branch: the padded list reaches 5 entries
    have hpad := padCommon_length_ge commonConstellations hnd (seasonal ++ selCirc)
    have hnot := filter_not_mem_length_ge commonConstellations (seasonal ++ selCirc) hnd
    rw [List.length_take]
    split_ifs at hsel <;> simp_all <;> omega
  · rw [List.length_take]
    split_ifs at hsel <;> omega

/-- C5: for every instant (with the non-negative calendar fields real
`Date` values produce) and every location, `getVisibleConstellations`
returns at least 4 and at most 5 names; the seasonal catalog, the
circumpolar lists and the common fallback list always supply that many
distinct names, so the floor is unconditional. -/
theorem visibleConstellations_length (d : Instant) (latitude longitude : ℚ)
    (hmonth : 0 ≤ d.month) (hday : 0 ≤ d.day) (hyear : 0 ≤ d.year) :
    4 ≤ (getVisibleConstellations d latitude longitude).length ∧
      (getVisibleConstellations d latitude longitude).length ≤ 5 := by
  apply assembleConstellations_length
  · unfold selCircFor
    split_ifs with h
    · simp [h]
    · simp [h]
  · unfold seasonalFor visibleSeasonal
    rw [List.length_map, List.length_take]
    omega

/-- Witness for C5 at 2024-03-15, New York (40.7128 N, 74.0060 W). -/
theorem visibleConstellations_length_witness :
    0 ≤ (Instant.mk 2024 2 15 0 0 0).month ∧ 0 ≤ (Instant.mk 2024 2 15 0 0 0).day ∧
    0 ≤ (Instant.mk 2024 2 15 0 0 0).year ∧
    (4 ≤ (getVisibleConstellations (Instant.mk 2024 2 15 0 0 0) 40.7128 (-74.0060)).length ∧
      (getVisibleConstellations (Instant.mk 2024 2 15 0 0 0) 40.7128 (-74.0060)).length ≤ 5) :=
  ⟨by decide, by decide, by decide,
    visibleConstellations_length _ _ _ (by decide) (by decide) (by decide)⟩

/-- Phase normalization at the top of `generateMoonPhaseSVG`
(`astronomy.ts` line 509): `((phase % 1) + 1) % 1`. -/
def normalizePhase (p : ℚ) : ℚ := jsMod (jsMod p 1 + 1) 1

/-- New-moon special case (`astronomy.ts` lines 519-524): solid black
disc, with the constants `width=100`, `height=100`, `cx=50`, `cy=50`,
`r=40` substituted into the template. -/
def newMoonDiscSvg : String :=
  "<svg width=\"100\" height=\"100\" viewBox=\"0 0 100 100\">\n      <circle cx=\"50\" cy=\"50\" r=\"40\" fill=\"black\" stroke=\"#444\" stroke-width=\"1\" />\n    </svg>"

/-- Full-moon special case (`astronomy.ts` lines 526-531): solid white disc. -/
def fullMoonDiscSvg : String :=
  "<svg width=\"100\" height=\"100\" viewBox=\"0 0 100 100\">\n      <circle cx=\"50\" cy=\"50\" r=\"40\" fill=\"white\" stroke=\"#444\" stroke-width=\"1\" />\n    </svg>"

/-- First-quarter special case: right half illuminated. -/
def firstQuarterSvg : String :=
  "<svg width=\"100\" height=\"100\" viewBox=\"0 0 100 100\">\n      <circle cx=\"50\" cy=\"50\" r=\"40\" fill=\"black\" stroke=\"#444\" stroke-width=\"1\" />\n      <path d=\"M 50 10 A 40 40 0 0 1 50 90 L 50 10 Z\" fill=\"white\" />\n    </svg>"

/-- Last-quarter special case: left half illuminated. -/
def lastQuarterSvg : String :=
  "<svg width=\"100\" height=\"100\" viewBox=\"0 0 100 100\">\n      <circle cx=\"50\" cy=\"50\" r=\"40\" fill=\"black\" stroke=\"#444\" stroke-width=\"1\" />\n      <path d=\"M 50 10 A 40 40 0 0 0 50 90 L 50 10 Z\" fill=\"white\" />\n    </svg>"

/-- Waxing-crescent branch: black disc with a white sliver whose
terminator ellipse width is the rendered curve factor. -/
def waxingCrescentSvg (cf : String) : String :=
  "<svg width=\"100\" height=\"100\" viewBox=\"0 0 100 100\">\n        <circle cx=\"50\" cy=\"50\" r=\"40\" fill=\"black\" stroke=\"#444\" stroke-width=\"1\" />\n        <path d=\"M 50 10 \n                A " ++ cf ++ " 40 0 0 1 50 90 \n                A 40 40 0 0 0 50 10\" \n              fill=\"white\" />\n      </svg>"

/-- Waxing-gibbous branch: white disc with a black sliver. -/
def waxingGibbousSvg (cf : String) : String :=
  "<svg width=\"100\" height=\"100\" viewBox=\"0 0 100 100\">\n        <circle cx=\"50\" cy=\"50\" r=\"40\" fill=\"white\" stroke=\"#444\" stroke-width=\"1\" />\n        <path d=\"M 50 10 \n                A " ++ cf ++ " 40 0 0 0 50 90 \n                A 40 40 0 0 1 50 10\" \n              fill=\"black\" />\n      </svg>"

/-- Waning-gibbous branch: white disc with a black sliver. -/
def waningGibbousSvg (cf : String) : String :=
  "<svg width=\"100\" height=\"100\" viewBox=\"0 0 100 100\">\n        <circle cx=\"50\" cy=\"50\" r=\"40\" fill=\"white\" stroke=\"#444\" stroke-width=\"1\" />\n        <path d=\"M 50 10 \n                A " ++ cf ++ " 40 0 0 1 50 90 \n                A 40 40 0 0 0 50 10\" \n              fill=\"black\" />\n      </svg>"

/-- Waning-crescent branch: black disc with a white sliver. -/
def waningCrescentSvg (cf : String) : String :=
  "<svg width=\"100\" height=\"100\" viewBox=\"0 0 100 100\">\n        <circle cx=\"50\" cy=\"50\" r=\"40\" fill=\"black\" stroke=\"#444\" stroke-width=\"1\" />\n        <path d=\"M 50 10 \n                A " ++ cf ++ " 40 0 0 0 50 90 \n                A 40 40 0 0 1 50 10\" \n              fill=\"white\" />\n      </svg>"

/-- `generateMoonPhaseSVG` (`astronomy.ts` lines 502-614).  `toStr`
abstracts JavaScript's number-to-string conversion used when the
real-valued curve factor is spliced into the path; the special-case
branches never consult it.  The source also computes an `xOffset`
(`r * cos(phaseAngle·π/180)`) that never appears in the emitted markup,
kept here for faithfulness. -/
noncomputable def generateMoonPhaseSVG (toStr : ℝ → String) (phase0 : ℚ) : String :=
  let phase := normalizePhase phase0
  if |phase| < 0.01 ∨ |phase - 1| < 0.01 then newMoonDiscSvg
  else if |phase - 0.5| < 0.01 then fullMoonDiscSvg
  else if |phase - 0.25| < 0.01 then firstQuarterSvg
  else if |phase - 0.75| < 0.01 then lastQuarterSvg
  else
    let phaseAngle : ℝ := (phase : ℝ) * 360
    let xOffset : ℝ := 40 * Real.cos (phaseAngle * Real.pi / 180)
    let curveFactor : ℝ := |Real.sin (phaseAngle * Real.pi / 180)| * 40
    if phase < 0.5 then
      if phase < 0.25 then waxingCrescentSvg (toStr curveFactor)
      else waxingGibbousSvg (toStr curveFactor)
    else
      if phase < 0.75 then waningGibbousSvg (toStr curveFactor)
      else waningCrescentSvg (toStr curveFactor)

lemma jsMod_one (a : ℚ) (h : 0 ≤ a) : jsMod a 1 = a - ⌊a⌋ := by
  rw [jsMod, div_one, ratTrunc, if_pos h, one_mul]

lemma normalizePhase_zero : normalizePhase 0 = 0 := by
  have h1 : jsMod (0 : ℚ) 1 = 0 := by
    rw [jsMod_one _ le_rfl, Int.floor_zero]
    norm_num
  rw [normalizePhase, h1]
  have e : ((0 : ℚ) + 1) = 1 := by norm_num
  rw [e, jsMod_one _ (by norm_num), Int.floor_one]
  norm_num

lemma normalizePhase_half : normalizePhase (1/2) = 1/2 := by
  have fh : ⌊(1/2 : ℚ)⌋ = 0 := Int.floor_eq_iff.mpr (by norm_num)
  have h1 : jsMod (1/2 : ℚ) 1 = 1/2 := by
    rw [jsMod_one _ (by norm_num), fh]
    norm_num
  rw [normalizePhase, h1]
  have e : ((1/2 : ℚ) + 1) = 3/2 := by norm_num
  have f32 : ⌊(3/2 : ℚ)⌋ = 1 := Int.floor_eq_iff.mpr (by norm_num)
  rw [e, jsMod_one _ (by norm_num), f32]
  norm_num

set_option maxRecDepth 8192 in
/-- C9: the renderer yields the solid black disc (no white region) for
phase fraction 0, and the solid white disc (no black region) for phase
fraction 0.5, for any number-rendering function. -/
theorem moonSvg_new_dark_full_light (toStr : ℝ → String) :
    (generateMoonPhaseSVG toStr 0 = newMoonDiscSvg ∧
      ¬ ("white".toList <:+: (generateMoonPhaseSVG toStr 0).toList)) ∧
    (generateMoonPhaseSVG toStr (1/2) = fullMoonDiscSvg ∧
      ¬ ("black".toList <:+: (generateMoonPhaseSVG toStr (1/2)).toList)) := by
  have h0 : generateMoonPhaseSVG toStr 0 = newMoonDiscSvg := by
    rw [generateMoonPhaseSVG]
    rw [normalizePhase_zero]
    rw [if_pos (by simp only [abs_lt]; norm_num)]
  have h5 : generateMoonPhaseSVG toStr (1/2) = fullMoonDiscSvg := by
    rw [generateMoonPhaseSVG]
    rw [normalizePhase_half]
    rw [if_neg (by simp only [abs_lt]; norm_num),
      if_pos (by simp only [abs_lt]; norm_num)]
  refine ⟨⟨h0, ?_⟩, ⟨h5, ?_⟩⟩
  · rw [h0]
    decide
  · rw [h5]
    decide

end Astronomy
